import Mathlib

/-!
Verification of the `compiler-api` core against its natural-language
specification.

The development shallowly embeds the four source components:

* the content-addressed blob store, alias registry and event log (`db.js`:
  `putBlob`, `getBlob`, `recordEvent`, `setAlias`, `getAlias`, `deleteAlias`,
  `resolveRef`);
* the wasm contract validator (`validate.js`: `parseSections`, `parseTypes`,
  `parseImports`, `parseFunctions`, `parseExports`, `validate`);
* the execution harness (`server.js`: `executeModule`);
* the relevant route logic of `server.js` (`/compile/:language` success path,
  `/run/:ref` failure path).

Bytes are `Nat` (values 0..255); an out-of-range JavaScript buffer read
yields `undefined`, embedded as `Option Nat` with `none` for `undefined`.
JavaScript exceptions are embedded as `Except String`.  SHA-256 (an external
library call, `crypto.createHash`) is an abstract parameter `sha256hex`.
-/

namespace CompilerApi

/-! ## Blob store, alias registry, event log (`db.js`) -/

/-- A row of the `blobs` table: `data`, `size`, `created_at`.
`created_at` is an abstract clock value (the SQL default `strftime(.., now)`). -/
structure BlobRow where
  data : List Nat
  size : Nat
  createdAt : Nat
  deriving Repr, DecidableEq

/-- A row of the `aliases` table (the `name` column is the association key). -/
structure AliasRow where
  hash : String
  createdAt : Nat
  updatedAt : Nat
  deriving Repr, DecidableEq

/-- A row of the `events` table.  `success` is the stored INTEGER (1 or 0);
optional columns are `Option` with `none` for SQL NULL.  The `type` and
`alias` columns are named `etype` and `aliasName` (`type` and `alias` are
reserved words in Lean). -/
structure EventRow where
  etype : String
  language : Option String
  input_hash : Option String
  output_hash : Option String
  module_hash : Option String
  aliasName : Option String
  output_size : Option Nat
  duration_ms : Option Nat
  success : Nat
  error : Option String
  deriving Repr, DecidableEq

/-- The durable state: the three tables plus the clock used for the
`strftime` column defaults.  Rows are kept in insertion order. -/
structure Store where
  blobs : List (String × BlobRow)
  aliases : List (String × AliasRow)
  events : List EventRow
  now : Nat
  deriving Repr, DecidableEq

def emptyStore : Store := { blobs := [], aliases := [], events := [], now := 0 }

/-- `SELECT 1 FROM blobs WHERE hash = ? LIMIT 1` (the `hasBlob` statement). -/
def hasBlob (st : Store) (h : String) : Bool :=
  st.blobs.any (fun p => p.1 = h)

/-- `SELECT data FROM blobs WHERE hash = ?` (`getBlob`): the row, if any,
whose primary key matches. -/
def getBlob (st : Store) (h : String) : Option (List Nat) :=
  (st.blobs.find? (fun p => p.1 = h)).map (fun p => p.2.data)

section WithHash

-- `crypto.createHash("sha256")....digest("hex")` — abstract digest.
variable (sha256hex : List Nat → String)

/-- `putBlob(data)` from `db.js`: compute the hash, `INSERT OR IGNORE` the row
(`created_at` defaults to the current clock on a genuine insert), return the
hash.  Returns the hash together with the updated store. -/
def putBlob (st : Store) (data : List Nat) : String × Store :=
  if hasBlob st (sha256hex data) then (sha256hex data, st)
  else
    (sha256hex data,
     { st with blobs := st.blobs ++ [(sha256hex data, ⟨data, data.length, st.now⟩)],
               now := st.now + 1 })

end WithHash

/-- JavaScript `x || null` on a numeric option: `undefined` and `0` are falsy
and store NULL; every other number is stored as is. -/
def jsOrNullNat : Option Nat → Option Nat
  | none => none
  | some 0 => none
  | some n => some n

/-- JavaScript `x || null` on a string option: `undefined` and `""` are falsy
and store NULL. -/
def jsOrNullStr : Option String → Option String
  | none => none
  | some s => if s = "" then none else some s

/-- The destructured options object accepted by `recordEvent` in `db.js`;
an absent property is `none`. -/
structure EventArgs where
  etype : Option String := none
  language : Option String := none
  inputHash : Option String := none
  outputHash : Option String := none
  moduleHash : Option String := none
  aliasName : Option String := none
  outputSize : Option Nat := none
  durationMs : Option Nat := none
  success : Bool := false
  error : Option String := none
  deriving Repr, DecidableEq

/-- The row `recordEvent` inserts: each optional argument passes through
`x || null` (so `0` and `""` become NULL), `type` falls back to `"compile"`,
and `success` is stored as `1`/`0`. -/
def mkEventRow (a : EventArgs) : EventRow :=
  { etype := (jsOrNullStr a.etype).getD "compile"
    language := jsOrNullStr a.language
    input_hash := jsOrNullStr a.inputHash
    output_hash := jsOrNullStr a.outputHash
    module_hash := jsOrNullStr a.moduleHash
    aliasName := jsOrNullStr a.aliasName
    output_size := jsOrNullNat a.outputSize
    duration_ms := jsOrNullNat a.durationMs
    success := if a.success then 1 else 0
    error := jsOrNullStr a.error }

/-- `recordEvent` from `db.js`: append one row to the `events` table. -/
def recordEvent (st : Store) (a : EventArgs) : Store :=
  { st with events := st.events ++ [mkEventRow a] }

/-- `getAlias(name)`: `SELECT .. FROM aliases WHERE name = ?`. -/
def getAlias (st : Store) (name : String) : Option AliasRow :=
  (st.aliases.find? (fun p => p.1 = name)).map (fun p => p.2)

/-- `setAlias(name, hash)` from `db.js`: verify the blob exists (return `none`
— the JS `null` sentinel — without touching the registry if not), then upsert:
a fresh name inserts with `created_at = updated_at = now`; an existing name
keeps `created_at` and refreshes `hash` and `updated_at`. -/
def setAlias (st : Store) (name hash : String) : Option (String × String) × Store :=
  if hasBlob st hash then
    match getAlias st name with
    | some row =>
        (some (name, hash),
         { st with
             aliases := st.aliases.map (fun p =>
               if p.1 = name then (name, { row with hash := hash, updatedAt := st.now }) else p),
             now := st.now + 1 })
    | none =>
        (some (name, hash),
         { st with aliases := st.aliases ++ [(name, ⟨hash, st.now, st.now⟩)],
                   now := st.now + 1 })
  else (none, st)

/-- `deleteAlias(name)`: `DELETE FROM aliases WHERE name = ?`; returns whether
a row was removed. -/
def deleteAlias (st : Store) (name : String) : Bool × Store :=
  (st.aliases.any (fun p => p.1 = name),
   { st with aliases := st.aliases.filter (fun p => p.1 ≠ name) })

/-- The record returned by `resolveRef`: the resolved hash, and the alias
name when the ref went through the registry (`null` otherwise). -/
structure Resolved where
  hash : String
  aliasUsed : Option String
  deriving Repr, DecidableEq

/-- `resolveRef(ref)` from `db.js`: alias lookup first, then direct blob
hash, else failure. -/
def resolveRef (st : Store) (ref : String) : Option Resolved :=
  match getAlias st ref with
  | some a => some ⟨a.hash, some ref⟩
  | none => if hasBlob st ref then some ⟨ref, none⟩ else none

/-- The mutating operations the store module exports. -/
inductive StoreOp where
  | put (data : List Nat)
  | set (name hash : String)
  | del (name : String)
  | record (a : EventArgs)

/-- Run one mutating operation (with the given digest function for `put`). -/
def applyOp (sha256hex : List Nat → String) (st : Store) : StoreOp → Store
  | .put d => (putBlob sha256hex st d).2
  | .set n h => (setAlias st n h).2
  | .del n => (deleteAlias st n).2
  | .record a => recordEvent st a

/-- The alias-registry invariant: every alias row references a stored blob. -/
def aliasInv (st : Store) : Prop :=
  ∀ p ∈ st.aliases, hasBlob st p.2.hash = true

instance (st : Store) : Decidable (aliasInv st) := by
  unfold aliasInv; infer_instance

/-- `ref` is hash-collision-free against the blobs already stored: any stored
row keyed by `sha256hex x` actually holds `x`.  (The code assumes SHA-256
collisions are absent; this is the local form of that assumption.) -/
def noCollisionWith (sha256hex : List Nat → String) (st : Store) (x : List Nat) : Prop :=
  ∀ p ∈ st.blobs, p.1 = sha256hex x → p.2.data = x

/-- A concrete injective stand-in digest, used only to instantiate witnesses. -/
def demoHash (bs : List Nat) : String := toString bs

/-! ## Contract validator (`validate.js`)

The validator reads bytes through a `Reader` whose `byte()` returns the
buffer entry at `pos` (JavaScript `undefined`, i.e. `none`, past the end) and
increments `pos` unconditionally.  `leb128()` is JavaScript bit arithmetic:
32-bit operands, shift counts taken mod 32, final `>>> 0`; the loop stops on
a clear continuation bit, which an out-of-range (`undefined`) byte also
produces since `undefined & 0x80` is `0`. -/

def SECTION_TYPE : Nat := 1
def SECTION_IMPORT : Nat := 2
def SECTION_FUNCTION : Nat := 3
def SECTION_EXPORT : Nat := 7

def TYPE_I32 : Nat := 0x7f
def FUNC_TYPE_TAG : Nat := 0x60

def EXPORT_FUNC : Nat := 0
def EXPORT_MEMORY : Nat := 2

/-- One step of `leb128()`: `result |= (b & 0x7f) << shift` on 32-bit values
(`<<` masks its shift count to 5 bits), tracked as the unsigned 32-bit word
that the final `>>> 0` reads back. -/
def leb128Step (result shift b : Nat) : Nat :=
  result ||| (((b &&& 0x7f) <<< (shift % 32)) % 2 ^ 32)

/-- The `do { .. } while (b & 0x80)` loop of `leb128()`.  `fuel` only bounds
the recursion; each iteration advances `pos`, so any `fuel > buf.length` is
never exhausted and the function computes exactly what the JS loop does.
Returns the decoded value and the reader position after the loop. -/
def leb128Go (buf : List Nat) : Nat → Nat → Nat → Nat → Nat × Nat
  | 0, pos, result, _ => (result, pos)
  | fuel + 1, pos, result, shift =>
    match buf.get? pos with
    | none => (result, pos + 1)
    | some b =>
      if b &&& 0x80 ≠ 0 then leb128Go buf fuel (pos + 1) (leb128Step result shift b) (shift + 7)
      else (leb128Step result shift b, pos + 1)

/-- `r.u32()` / `r.leb128()` starting at `pos`: the decoded value and the new
position. -/
def leb128 (buf : List Nat) (pos : Nat) : Nat × Nat :=
  leb128Go buf (buf.length + 2) pos 0 0

/-- `r.bytes(n)`: `buf.slice(pos, pos + n)` (clamped), advancing `pos` by `n`
even past the end of the buffer. -/
def readBytes (buf : List Nat) (pos n : Nat) : List Nat × Nat :=
  ((buf.drop pos).take n, pos + n)

/-- The section payloads `validate` consumes, keyed by section id 1, 2, 3, 7.
(The source collects every section id into an object; only these four are
ever read, and a later duplicate overwrites an earlier one.) -/
structure Sections where
  typeSec : Option (List Nat) := none
  importSec : Option (List Nat) := none
  functionSec : Option (List Nat) := none
  exportSec : Option (List Nat) := none
  deriving Repr, DecidableEq

/-- `sections[id] = payload` for the ids the validator reads. -/
def setSection (s : Sections) (id : Nat) (payload : List Nat) : Sections :=
  if id = SECTION_TYPE then { s with typeSec := some payload }
  else if id = SECTION_IMPORT then { s with importSec := some payload }
  else if id = SECTION_FUNCTION then { s with functionSec := some payload }
  else if id = SECTION_EXPORT then { s with exportSec := some payload }
  else s

/-- The `while (r.pos < r.buf.length)` section loop: read an id byte, a
ULEB128 size, `size` payload bytes.  Each iteration advances `pos` by at
least one, so `fuel = buf.length + 1` is never exhausted. -/
def parseSectionsGo (buf : List Nat) : Nat → Nat → Sections → Sections
  | 0, _, s => s
  | fuel + 1, pos, s =>
    if h : pos < buf.length then
      let id := buf.get ⟨pos, h⟩
      let sz := leb128 buf (pos + 1)
      let payload := readBytes buf sz.2 sz.1
      parseSectionsGo buf fuel payload.2 (setSection s id payload.1)
    else s

/-- `parseSections` from `validate.js`: check the 4-byte magic (throwing
`"Not a wasm module"` otherwise), skip the version, then collect sections. -/
def parseSections (buf : List Nat) : Except String Sections :=
  if buf.take 4 = [0x00, 0x61, 0x73, 0x6d] then
    .ok (parseSectionsGo buf (buf.length + 1) 8 {})
  else .error "Not a wasm module"

/-- JavaScript `n.toString(16)` for a natural number. -/
def hexStrAux : Nat → Nat → List Char → List Char
  | 0, _, acc => acc
  | fuel + 1, n, acc =>
    let d := n % 16
    let c := if d < 10 then Char.ofNat (48 + d) else Char.ofNat (87 + d)
    if n < 16 then c :: acc else hexStrAux fuel (n / 16) (c :: acc)

def hexStr (n : Nat) : String := String.mk (hexStrAux (n + 1) n [])

/-- A function type as `parseTypes` builds it: the pushed value-type bytes.
A byte read past the end of the payload pushes JavaScript `undefined`,
hence the entries are `Option Nat`. -/
structure FuncType where
  params : List (Option Nat)
  results : List (Option Nat)
  deriving Repr, DecidableEq

/-- The body of the `parseTypes` count loop.  Reading the tag byte past the
end of the payload throws (the template literal calls `toString` on
`undefined`); a present tag other than `0x60` throws
`"Unexpected type tag: 0x<hex>"`.  The param/result loops push `r.byte()`
verbatim, `undefined` included. -/
def parseTypesGo (buf : List Nat) : Nat → Nat → Except String (List FuncType)
  | 0, _ => .ok []
  | n + 1, pos =>
    match buf.get? pos with
    | none => .error "TypeError: Cannot read properties of undefined (reading toString)"
    | some tag =>
      if tag ≠ FUNC_TYPE_TAG then .error ("Unexpected type tag: 0x" ++ hexStr tag)
      else
        let pc := leb128 buf (pos + 1)
        let params := (List.range pc.1).map (fun j => buf.get? (pc.2 + j))
        let rc := leb128 buf (pc.2 + pc.1)
        let results := (List.range rc.1).map (fun j => buf.get? (rc.2 + j))
        (parseTypesGo buf n (rc.2 + rc.1)).map (fun ts => ⟨params, results⟩ :: ts)

/-- `parseTypes` from `validate.js`. -/
def parseTypes (buf : List Nat) : Except String (List FuncType) :=
  let c := leb128 buf 0
  parseTypesGo buf c.1 c.2

/-- The body of the `parseImports` count loop: skip two length-prefixed
names, read the kind byte (`undefined` past the end matches no branch), and
advance over the kind-specific data exactly as the source does, counting
function imports. -/
def parseImportsGo (buf : List Nat) : Nat → Nat → Nat → Nat
  | 0, _, acc => acc
  | n + 1, pos, acc =>
    let l1 := leb128 buf pos
    let l2 := leb128 buf (l1.2 + l1.1)
    let kindPos := l2.2 + l2.1
    match buf.get? kindPos with
    | none => parseImportsGo buf n (kindPos + 1) acc
    | some kind =>
      let p := kindPos + 1
      if kind = 0 then
        let t := leb128 buf p
        parseImportsGo buf n t.2 (acc + 1)
      else if kind = 1 then
        let t := leb128 buf (p + 1)
        parseImportsGo buf n t.2 acc
      else if kind = 2 then
        let t := leb128 buf (p + 1)
        if buf.get? (t.2 - 1) = some 1 then
          let u := leb128 buf t.2
          parseImportsGo buf n u.2 acc
        else parseImportsGo buf n t.2 acc
      else if kind = 3 then
        parseImportsGo buf n (p + 2) acc
      else
        parseImportsGo buf n p acc

/-- `parseImports` from `validate.js`: only `funcImports` is returned. -/
def parseImports (buf : List Nat) : Nat :=
  let c := leb128 buf 0
  parseImportsGo buf c.1 c.2 0

/-- The body of the `parseFunctions` count loop: that many ULEB128 type
indices, in order. -/
def parseFunctionsGo (buf : List Nat) : Nat → Nat → List Nat
  | 0, _ => []
  | n + 1, pos =>
    let t := leb128 buf pos
    t.1 :: parseFunctionsGo buf n t.2

/-- `parseFunctions` from `validate.js`. -/
def parseFunctions (buf : List Nat) : List Nat :=
  let c := leb128 buf 0
  parseFunctionsGo buf c.1 c.2

/-- One export record: the raw name bytes, the kind byte (`undefined` past
the end), and the ULEB128 index. -/
structure WasmExport where
  name : List Nat
  kind : Option Nat
  index : Nat
  deriving Repr, DecidableEq

/-- The body of the `parseExports` count loop. -/
def parseExportsGo (buf : List Nat) : Nat → Nat → List WasmExport
  | 0, _ => []
  | n + 1, pos =>
    let l := leb128 buf pos
    let nm := readBytes buf l.2 l.1
    let kind := buf.get? nm.2
    let idx := leb128 buf (nm.2 + 1)
    ⟨nm.1, kind, idx.1⟩ :: parseExportsGo buf n idx.2

/-- `parseExports` from `validate.js`. -/
def parseExports (buf : List Nat) : List WasmExport :=
  let c := leb128 buf 0
  parseExportsGo buf c.1 c.2

/-- `typeName(t)` from `validate.js`; calling it on JavaScript `undefined`
(a value-type byte read past the end) throws. -/
def typeName (t : Option Nat) : Except String String :=
  match t with
  | none => .error "TypeError: Cannot read properties of undefined (reading toString)"
  | some t =>
    .ok (if t = TYPE_I32 then "i32"
         else if t = 0x7e then "i64"
         else if t = 0x7d then "f32"
         else if t = 0x7c then "f64"
         else "0x" ++ hexStr t)

/-- `formatSig(type)` from `validate.js`. -/
def formatSig (ft : FuncType) : Except String String := do
  let ps ← ft.params.mapM typeName
  let rs ← ft.results.mapM typeName
  pure ("(" ++ String.intercalate ", " ps ++ ") -> ("
          ++ String.intercalate ", " rs ++ ")")

def EXPECTED_PARAMS : List (Option Nat) := [some TYPE_I32, some TYPE_I32, some TYPE_I32]
def EXPECTED_RESULTS : List (Option Nat) := [some TYPE_I32]

/-- The byte strings the validator compares export names against. -/
def memoryName : List Nat := [0x6d, 0x65, 0x6d, 0x6f, 0x72, 0x79]
def runExportName : List Nat := [0x72, 0x75, 0x6e]
def initializeName : List Nat := [0x5f, 0x69, 0x6e, 0x69, 0x74, 0x69, 0x61, 0x6c, 0x69, 0x7a, 0x65]

/-- Byte-wise rendering of an export name, used only inside warning strings
(faithful for the ASCII names every claim touches). -/
def renderName (bs : List Nat) : String := String.mk (bs.map Char.ofNat)

/-- `info.exports[exp.name] = {kind, index}`: JavaScript object update —
an existing key keeps its position, a fresh key is appended. -/
def setInfo (m : List (List Nat × Option Nat × Nat)) (nm : List Nat) (k : Option Nat) (i : Nat) :
    List (List Nat × Option Nat × Nat) :=
  if m.any (fun e => e.1 = nm) then m.map (fun e => if e.1 = nm then (nm, k, i) else e)
  else m ++ [(nm, k, i)]

/-- The record `validate` returns. -/
structure ValidationResult where
  valid : Bool
  errors : List String
  warnings : List String
  runSignature : Option String
  infoExports : List (List Nat × Option Nat × Nat)
  deriving Repr, DecidableEq

/-- The `runExport` branch of `validate`: resolve the exported function index
against the Function and Type sections and check the signature.  Returns the
errors pushed by this branch together with `info.runSignature`; `formatSig`
can throw (propagated).  The guarded list access mirrors
`funcTypeIndices[localIndex]`, which the bounds check has made safe. -/
def checkRun (types : List FuncType) (funcImports : Nat) (funcTypeIndices : List Nat)
    (runExp : WasmExport) : Except String (List String × Option String) :=
  if ((runExp.index : Int) - (funcImports : Int)) < 0 ∨
      (funcTypeIndices.length : Int) ≤ ((runExp.index : Int) - (funcImports : Int)) then
    .ok (["Cannot resolve type for run (func index " ++ toString runExp.index ++ ")"], none)
  else
    match types.get? (funcTypeIndices.getD ((runExp.index : Int) - (funcImports : Int)).toNat 0) with
    | none =>
      .ok (["Cannot resolve type index "
              ++ toString (funcTypeIndices.getD ((runExp.index : Int) - (funcImports : Int)).toNat 0)
              ++ " for run"], none)
    | some ty =>
      match formatSig ty with
      | .error e => .error e
      | .ok sig =>
        if ty.params = EXPECTED_PARAMS ∧ ty.results = EXPECTED_RESULTS then .ok ([], some sig)
        else
          .ok (["Wrong signature for run: got " ++ sig
                  ++ ", expected (i32, i32, i32) -> (i32)"], some sig)

/-- The Type-section decode step of `validate`:
`sections[SECTION_TYPE] ? parseTypes(..) : []`. -/
def typesOfSections (s : Sections) : Except String (List FuncType) :=
  match s.typeSec with
  | some p => parseTypes p
  | none => .ok []

/-- `sections[SECTION_IMPORT] ? parseImports(..).funcImports : 0`. -/
def importsOfSections (s : Sections) : Nat :=
  match s.importSec with
  | some p => parseImports p
  | none => 0

/-- `sections[SECTION_FUNCTION] ? parseFunctions(..) : []`. -/
def functionsOfSections (s : Sections) : List Nat :=
  match s.functionSec with
  | some p => parseFunctions p
  | none => []

/-- `sections[SECTION_EXPORT] ? parseExports(..) : []`. -/
def exportsOfSections (s : Sections) : List WasmExport :=
  match s.exportSec with
  | some p => parseExports p
  | none => []

/-- The checks of `validate` once the four sections are decoded: the memory
error (pushed first), the run branch, and the extra-export warnings. -/
def validateParsed (types : List FuncType) (funcImports : Nat)
    (funcTypeIndices : List Nat) (exports : List WasmExport) :
    Except String ValidationResult :=
  let info := exports.foldl (fun m e => setInfo m e.name e.kind e.index) []
  let memErrs : List String :=
    if exports.any (fun e => e.name = memoryName ∧ e.kind = some EXPORT_MEMORY) then []
    else ["Missing export: memory (kind: memory)"]
  let warnings : List String :=
    (exports.filter (fun e =>
        ¬ (e.name = memoryName ∨ e.name = runExportName ∨ e.name = initializeName))).map
      (fun e => "Extra export: " ++ renderName e.name)
  match exports.find? (fun e => e.name = runExportName ∧ e.kind = some EXPORT_FUNC) with
  | none =>
    let errors := memErrs ++ ["Missing export: run (kind: function)"]
    .ok { valid := errors.isEmpty, errors := errors, warnings := warnings,
          runSignature := none, infoExports := info }
  | some runExp =>
    match checkRun types funcImports funcTypeIndices runExp with
    | .error e => .error e
    | .ok (runErrs, sig) =>
      let errors := memErrs ++ runErrs
      .ok { valid := errors.isEmpty, errors := errors, warnings := warnings,
            runSignature := sig, infoExports := info }

/-- `validate(wasmBytes)` from `validate.js`.  Only `parseSections` runs
inside the `try`; an exception thrown by the later content parsers (or by
`formatSig`) propagates as `Except.error`. -/
def validate (wasmBytes : List Nat) : Except String ValidationResult :=
  match parseSections wasmBytes with
  | .error msg =>
    .ok { valid := false, errors := ["Invalid wasm binary: " ++ msg],
          warnings := [], runSignature := none, infoExports := [] }
  | .ok sections =>
    match typesOfSections sections with
    | .error e => .error e
    | .ok types =>
      validateParsed types (importsOfSections sections) (functionsOfSections sections)
        (exportsOfSections sections)

/-! ## Execution harness (`server.js`, `executeModule`)

The guest's `run` export is arbitrary wasm code: the model takes its i32
return value (as the raw unsigned 32-bit word `runRet`) and the linear
memory contents after the call (`postMem`, re-read from `memory.buffer` by
the source) as parameters.  Traps inside `_initialize`/`run` and
`memory.grow` failure are rejections the model does not need to represent
for the claims at hand; `runRet`/`postMem` describe a call that returned. -/

def INPUT_PTR : Nat := 0
def OUTPUT_PTR : Nat := 65536
def MAX_OUTPUT : Nat := 65536

/-- `Math.ceil((OUTPUT_PTR + MAX_OUTPUT) / 65536)`. -/
def neededPages : Nat := (OUTPUT_PTR + MAX_OUTPUT + 65535) / 65536

/-- The growth step: wasm memory length is always a whole number of 64 KiB
pages (`current = byteLength / 65536`); `memory.grow` appends zero pages up
to `neededPages`. -/
def growMemory (mem : List Nat) : List Nat :=
  if mem.length / 65536 < neededPages then
    mem ++ List.replicate ((neededPages - mem.length / 65536) * 65536) 0
  else mem

/-- The i32 value the WebAssembly JS API hands back for raw bits `r`:
a signed 32-bit number. -/
def toSigned32 (r : Nat) : Int :=
  if r < 2 ^ 31 then (r : Int) else (r : Int) - 2 ^ 32

/-- Relative-index resolution of `%TypedArray%.prototype.slice`: a negative
index counts from the end, and the result is clamped to `[0, len]`. -/
def jsSliceIdx (len : Nat) (i : Int) : Nat :=
  if i < 0 then (max ((len : Int) + i) 0).toNat else min i.toNat len

/-- `a.slice(s, e)` on a typed array of naturals: the elements from the
resolved start index up to the resolved end index (empty when end ≤ start,
via truncated subtraction). -/
def jsSlice (a : List Nat) (s e : Int) : List Nat :=
  (a.drop (jsSliceIdx a.length s)).take (jsSliceIdx a.length e - jsSliceIdx a.length s)

/-- `outMem.slice(OUTPUT_PTR, OUTPUT_PTR + outputLen)`: the bytes the harness
returns, where `outputLen` is the signed reading of the raw return word. -/
def executeOutput (postMem : List Nat) (runRet : Nat) : List Nat :=
  jsSlice postMem (OUTPUT_PTR : Int) ((OUTPUT_PTR : Int) + toSigned32 runRet)

/-- `executeModule(wasmBytes, inputBytes)` from `server.js`, after
instantiation: check the `run` and `memory` exports, grow memory to the
contract minimum, copy the input (`mem.set` throws a `RangeError` when the
input does not fit), invoke `run`, and slice the output.  No check against
`MAX_OUTPUT` appears anywhere on the return path. -/
def executeModule (hasRun hasMemory : Bool) (mem0 input : List Nat)
    (runRet : Nat) (postMem : List Nat) : Except String (List Nat) :=
  if !hasRun then .error "Module does not export \x27run\x27"
  else if !hasMemory then .error "Module does not export \x27memory\x27"
  else if (growMemory mem0).length < input.length then
    .error "RangeError: offset is out of bounds"
  else .ok (executeOutput postMem runRet)

/-- The output slice as the claim reads it: the i32 return taken as an
unsigned length `n`, the output being `memory[OUTPUT_PTR : OUTPUT_PTR + n]`.
Written from the spec wording, for comparison with `executeOutput`. -/
def executeOutputUnsignedClaim (postMem : List Nat) (runRet : Nat) : List Nat :=
  (postMem.drop OUTPUT_PTR).take runRet

/-! ## Route logic (`server.js`) -/

/-- What the `/compile/:language` handler does after the toolchain subprocess
succeeded and the output file was read back, projected onto the observables
the spec talks about: HTTP status, response body, the contract headers, and
the `success` flag of the recorded compile event. -/
structure CompileHttpOutcome where
  status : Nat
  body : Option (List Nat)
  contractValidHeader : Option Bool
  contractErrorsHeader : Option (List String)
  contractWarningsHeader : Option (List String)
  eventSuccess : Bool
  deriving Repr, DecidableEq

/-- The tail of the `/compile/:language` success path (`server.js`): run the
validator, record a `success: true` compile event, answer 200 with the wasm
bytes and the `X-Contract-*` headers.  The whole handler body sits in a
`try`: an exception thrown by `validate` lands in the `catch`, which records
a `success: false` event and answers 400 `"Compilation failed"`. -/
def compileAfterToolchain (wasm : List Nat) : CompileHttpOutcome :=
  match validate wasm with
  | .error _ =>
    { status := 400, body := none, contractValidHeader := none,
      contractErrorsHeader := none, contractWarningsHeader := none,
      eventSuccess := false }
  | .ok v =>
    { status := 200, body := some wasm, contractValidHeader := some v.valid,
      contractErrorsHeader := if v.valid then none else some v.errors,
      contractWarningsHeader := if v.warnings.isEmpty then none else some v.warnings,
      eventSuccess := true }

/-- The `/run/:ref` handler on the body-input path when `executeModule`
rejects (`server.js`): the raw request body is stored as a blob before
execution, and the `catch` records one `execute` event carrying the module
hash, the input hash, the duration and the error message. -/
def runRouteBodyFailure (sha256hex : List Nat → String) (st : Store)
    (moduleHash : String) (body : List Nat) (durationMs : Nat) (errMsg : String) : Store :=
  let put := putBlob sha256hex st body
  recordEvent put.2
    { etype := some "execute", moduleHash := some moduleHash,
      inputHash := some (sha256hex body), durationMs := some durationMs,
      success := false, error := some errMsg }

/-! ## The ABI contract as the claims state it -/

/-- `run`'s signature resolves to exactly `(i32, i32, i32) -> (i32)`:
subtract the count of function imports from the export index (a negative
difference resolves nothing), index the Function section, index the Type
section.  Written from the claim wording. -/
def resolveRunOk (types : List FuncType) (funcImports : Nat) (funcTypeIndices : List Nat)
    (e : WasmExport) : Bool :=
  if funcImports ≤ e.index then
    match funcTypeIndices.get? (e.index - funcImports) with
    | none => false
    | some typeIdx =>
      match types.get? typeIdx with
      | none => false
      | some ty => ty.params = EXPECTED_PARAMS ∧ ty.results = EXPECTED_RESULTS
  else false

/-- The contract over already-decoded sections: a memory export named
`memory`, and a function export named `run` whose signature resolves to
`(i32, i32, i32) -> (i32)`. -/
def parsedContract (types : List FuncType) (funcImports : Nat) (funcTypeIndices : List Nat)
    (exports : List WasmExport) : Bool :=
  (exports.any (fun e => e.name = memoryName ∧ e.kind = some EXPORT_MEMORY)) &&
  (match exports.find? (fun e => e.name = runExportName ∧ e.kind = some EXPORT_FUNC) with
   | none => false
   | some e => resolveRunOk types funcImports funcTypeIndices e)

/-- The contract predicate written from the claim wording for the validator:
the section layout parses (and the Type section decodes), the module exports
a memory named `memory` (export kind memory) and a function named `run`
(export kind function), and `run`'s signature — resolved by subtracting the
count of function imports from `run`'s export index, indexing the Function
section, then indexing the Type section — is exactly
`(i32, i32, i32) -> (i32)`. -/
def contractOkB (wasmBytes : List Nat) : Bool :=
  match parseSections wasmBytes with
  | .error _ => false
  | .ok sections =>
    match typesOfSections sections with
    | .error _ => false
    | .ok types =>
      parsedContract types (importsOfSections sections) (functionsOfSections sections)
        (exportsOfSections sections)

/-! ## Concrete modules and stores used by counterexamples and witnesses -/

/-- A module whose section layout parses but whose Type section opens with
tag `0x61` instead of `0x60`: magic, version, then section id 1 of size 2
with payload `[0x01, 0x61]` (count 1, bad tag). -/
def badTypeTagWasm : List Nat :=
  [0x00, 0x61, 0x73, 0x6d, 0x01, 0x00, 0x00, 0x00, 0x01, 0x02, 0x01, 0x61]

/-- A minimal contract-conformant module: one type `(i32,i32,i32) -> (i32)`,
one local function of that type, exports `memory` (kind 2, index 0) and
`run` (kind 0, index 0). -/
def demoValidWasm : List Nat :=
  [0x00, 0x61, 0x73, 0x6d, 0x01, 0x00, 0x00, 0x00]
    ++ [0x01, 0x08, 0x01, 0x60, 0x03, 0x7f, 0x7f, 0x7f, 0x01, 0x7f]
    ++ [0x03, 0x02, 0x01, 0x00]
    ++ [0x07, 0x10, 0x02,
        0x06, 0x6d, 0x65, 0x6d, 0x6f, 0x72, 0x79, 0x02, 0x00,
        0x03, 0x72, 0x75, 0x6e, 0x00, 0x00]

/-- What `validate` returns on `demoValidWasm`. -/
def demoValidResult : ValidationResult :=
  { valid := true, errors := [], warnings := [],
    runSignature := some "(i32, i32, i32) -> (i32)",
    infoExports := [(memoryName, some EXPORT_MEMORY, 0), (runExportName, some EXPORT_FUNC, 0)] }

/-- A store holding two blobs, where the name `n` is simultaneously an alias
(to `h1`) and the key of a stored blob. -/
def demoStore : Store :=
  { blobs := [("h1", ⟨[1], 1, 0⟩), ("n", ⟨[2], 1, 0⟩)],
    aliases := [("n", ⟨"h1", 0, 0⟩)],
    events := [], now := 0 }

/-! ## Helper lemmas about the store -/

theorem putBlob_fst (sha256hex : List Nat → String) (st : Store) (x : List Nat) :
    (putBlob sha256hex st x).1 = sha256hex x := by
  by_cases hb : hasBlob st (sha256hex x) = true <;> simp [putBlob, hb]

theorem putBlob_of_hasBlob (sha256hex : List Nat → String) (st : Store) (x : List Nat)
    (hb : hasBlob st (sha256hex x) = true) :
    putBlob sha256hex st x = (sha256hex x, st) := by
  unfold putBlob
  rw [if_pos hb]

theorem putBlob_events (sha256hex : List Nat → String) (st : Store) (x : List Nat) :
    (putBlob sha256hex st x).2.events = st.events := by
  by_cases hb : hasBlob st (sha256hex x) = true <;> simp [putBlob, hb]

theorem putBlob_aliases (sha256hex : List Nat → String) (st : Store) (x : List Nat) :
    (putBlob sha256hex st x).2.aliases = st.aliases := by
  by_cases hb : hasBlob st (sha256hex x) = true <;> simp [putBlob, hb]

theorem hasBlob_putBlob_self (sha256hex : List Nat → String) (st : Store) (x : List Nat) :
    hasBlob (putBlob sha256hex st x).2 (sha256hex x) = true := by
  by_cases hb : hasBlob st (sha256hex x) = true
  · simp [putBlob, hb]
  · simp only [putBlob, hb]
    simp [hasBlob, List.any_append]

theorem hasBlob_putBlob_mono (sha256hex : List Nat → String) (st : Store) (x : List Nat)
    (h : String) (hh : hasBlob st h = true) :
    hasBlob (putBlob sha256hex st x).2 h = true := by
  by_cases hb : hasBlob st (sha256hex x) = true
  · simpa [putBlob, hb] using hh
  · simp only [putBlob, hb, if_false]
    simp only [hasBlob, List.any_append] at *
    simp [hh]

theorem getBlob_putBlob_self (sha256hex : List Nat → String) (st : Store) (x : List Nat)
    (hcol : noCollisionWith sha256hex st x) :
    getBlob (putBlob sha256hex st x).2 (sha256hex x) = some x := by
  by_cases hb : hasBlob st (sha256hex x) = true
  · simp only [putBlob, hb, if_true]
    rcases List.any_eq_true.mp hb with ⟨p, hp, hph⟩
    simp only [decide_eq_true_eq] at hph
    unfold getBlob
    cases hq : st.blobs.find? (fun p => p.1 = sha256hex x) with
    | none =>
      have := List.find?_eq_none.mp hq p hp
      simp [hph] at this
    | some q =>
      have hqm := List.mem_of_find?_eq_some hq
      have hqh : q.1 = sha256hex x := by
        have := List.find?_some hq
        simpa using this
      simp [hcol q hqm hqh]
  · simp only [putBlob, hb, if_false]
    unfold getBlob
    have hnone : st.blobs.find? (fun p => p.1 = sha256hex x) = none := by
      rw [List.find?_eq_none]
      intro p hp
      simp only [decide_eq_true_eq]
      intro hph
      exact hb (List.any_eq_true.mpr ⟨p, hp, by simp [hph]⟩)
    simp [List.find?_append, hnone]

/-! ## The validator decides exactly the contract (claim C4 machinery) -/

theorem checkRun_ok_iff (types : List FuncType) (fi : Nat) (fti : List Nat) (e : WasmExport)
    (runErrs : List String) (sig : Option String)
    (h : checkRun types fi fti e = .ok (runErrs, sig)) :
    (runErrs = [] ↔ resolveRunOk types fi fti e = true) := by
  unfold checkRun at h
  split at h
  next hcond =>
    obtain ⟨h1, -⟩ := Prod.mk.injEq .. ▸ Except.ok.inj h
    subst h1
    simp only [List.cons_ne_nil, false_iff]
    unfold resolveRunOk
    rcases hcond with hneg | hbig
    · rw [if_neg (by omega)]
      simp
    · by_cases hle : fi ≤ e.index
      · rw [if_pos hle]
        have hnone : fti.get? (e.index - fi) = none := by
          rw [List.get?_eq_none]
          omega
        rw [hnone]
        simp
      · rw [if_neg hle]
        simp
  next hcond =>
    push_neg at hcond
    obtain ⟨hge, hlt⟩ := hcond
    have hle : fi ≤ e.index := by omega
    have hidx : (((e.index : Int) - (fi : Int))).toNat = e.index - fi := by omega
    rw [hidx] at h
    have hget : fti.get? (e.index - fi) = some (fti.getD (e.index - fi) 0) := by
      rw [List.getD_eq_getElem?_getD, List.get?_eq_getElem?]
      cases hx : fti[e.index - fi]? with
      | none => exact absurd (List.getElem?_eq_none_iff.mp hx) (by omega)
      | some v => rfl
    split at h
    next hty =>
      obtain ⟨h1, -⟩ := Prod.mk.injEq .. ▸ Except.ok.inj h
      subst h1
      simp only [List.cons_ne_nil, false_iff]
      unfold resolveRunOk
      rw [if_pos hle, hget]
      simp only [hty]
      simp
    next ty hty =>
      split at h
      next msg hfs => exact Except.noConfusion h
      next s hfs =>
        split at h
        next hok =>
          obtain ⟨h1, -⟩ := Prod.mk.injEq .. ▸ Except.ok.inj h
          subst h1
          simp only [true_iff]
          unfold resolveRunOk
          rw [if_pos hle, hget]
          simp only [hty]
          simp [hok.1, hok.2]
        next hok =>
          obtain ⟨h1, -⟩ := Prod.mk.injEq .. ▸ Except.ok.inj h
          subst h1
          simp only [List.cons_ne_nil, false_iff]
          unfold resolveRunOk
          rw [if_pos hle, hget]
          simp only [hty, decide_eq_true_eq]
          exact fun hc => hok hc

theorem validateParsed_ok_iff (types : List FuncType) (fi : Nat) (fti : List Nat)
    (ex : List WasmExport) (r : ValidationResult)
    (h : validateParsed types fi fti ex = .ok r) :
    (r.valid = true ↔ r.errors = []) ∧
    (r.errors = [] ↔ parsedContract types fi fti ex = true) := by
  simp only [validateParsed] at h
  split at h
  next hfind =>
    have hr := (Except.ok.inj h).symm
    subst hr
    constructor
    · simp [List.isEmpty_iff]
    · simp only [parsedContract, hfind]
      simp
  next runExp hfind =>
    split at h
    next msg hcheck => exact Except.noConfusion h
    next runErrs sig hcheck =>
      have hr := (Except.ok.inj h).symm
      subst hr
      have hiff := checkRun_ok_iff types fi fti runExp runErrs sig hcheck
      constructor
      · simp [List.isEmpty_iff]
      · simp only [parsedContract, hfind]
        by_cases hany : ex.any (fun e => e.name = memoryName ∧ e.kind = some EXPORT_MEMORY) = true
        · rw [if_pos hany, hany]
          simpa using hiff
        · rw [if_neg hany]
          rw [Bool.not_eq_true] at hany
          rw [hany]
          simp

/-- Claim C4: whenever `validate` returns a result, `valid` is true exactly
when the errors list is empty, which in turn holds exactly when the module
satisfies the export contract (memory export named `memory`, function export
named `run` whose signature, resolved through the import count and the
Function and Type sections, is `(i32, i32, i32) -> (i32)`). -/
theorem c4_valid_iff_contract (w : List Nat) (r : ValidationResult)
    (h : validate w = .ok r) :
    (r.valid = true ↔ r.errors = []) ∧ (r.errors = [] ↔ contractOkB w = true) := by
  unfold validate at h
  unfold contractOkB
  split at h
  next msg hps =>
    have hr := (Except.ok.inj h).symm
    subst hr
    constructor <;> simp
  next sections hps =>
    split at h
    next e hty => exact Except.noConfusion h
    next types hty =>
      have h2 := validateParsed_ok_iff types (importsOfSections sections)
        (functionsOfSections sections) (exportsOfSections sections) r h
      exact h2

/-- Witness for claim C4 at the concrete module `demoValidWasm`. -/
theorem c4_valid_iff_contract_witness :
    (demoValidResult.valid = true ↔ demoValidResult.errors = []) ∧
    (demoValidResult.errors = [] ↔ contractOkB demoValidWasm = true) :=
  c4_valid_iff_contract demoValidWasm demoValidResult (by rfl)

/-- Claim C1 (code bug): the harness enforces no bound on the output length.
A `run` returning 65537 — one byte over `MAX_OUTPUT` — with three pages of
memory yields a successful 65537-byte output instead of an execution
failure; the `MAX_OUTPUT` constant is consulted only to size memory. -/
theorem growMemory_two_pages :
    growMemory (List.replicate 131072 (0 : Nat)) = List.replicate 131072 0 := by
  unfold growMemory
  simp only [List.length_replicate]
  rw [if_neg]
  norm_num [neededPages, OUTPUT_PTR, MAX_OUTPUT]

theorem toSigned32_65537 : toSigned32 65537 = (65537 : Int) := by
  unfold toSigned32
  norm_num

theorem jsSliceIdx_start_196608 : jsSliceIdx 196608 ((65536 : Nat) : Int) = 65536 := by
  unfold jsSliceIdx
  split_ifs <;> omega

theorem jsSliceIdx_end_196608 :
    jsSliceIdx 196608 (((65536 : Nat) : Int) + toSigned32 65537) = 131073 := by
  rw [toSigned32_65537]
  unfold jsSliceIdx
  split_ifs <;> omega

theorem executeOutput_overflow :
    executeOutput (List.replicate 196608 (1 : Nat)) 65537 = List.replicate 65537 1 := by
  unfold executeOutput jsSlice OUTPUT_PTR
  simp only [List.length_replicate]
  rw [jsSliceIdx_start_196608, jsSliceIdx_end_196608]
  rw [List.drop_replicate, List.take_replicate]
  norm_num

theorem c1_output_overflow_not_fatal :
    executeModule true true (List.replicate 131072 0) [] 65537 (List.replicate 196608 1)
      = .ok (List.replicate 65537 1) ∧
    MAX_OUTPUT < (List.replicate 65537 (1 : Nat)).length := by
  constructor
  · unfold executeModule
    rw [growMemory_two_pages, executeOutput_overflow]
    simp only [List.length_replicate, List.length_nil, Bool.not_true, Bool.false_eq_true,
      if_false]
    norm_num
  · rw [List.length_replicate]
    unfold MAX_OUTPUT
    norm_num

/-- Claim C2 (code bug): `validate` is not exception-free.  On a module whose
section layout parses but whose Type section opens with tag `0x61`, the
`parseTypes` exception escapes `validate` uncaught (the `try` block covers
only `parseSections`), instead of becoming
`{valid: false, errors: ["Invalid wasm binary: ..."]}`. -/
theorem c2_validator_throws_on_bad_type_tag :
    validate badTypeTagWasm = .error "Unexpected type tag: 0x61" ∧
    parseSections badTypeTagWasm =
      .ok { typeSec := some [0x01, 0x61], importSec := none,
            functionSec := none, exportSec := none } := by
  constructor <;> rfl

/-- Claim C8 (code bug): when the toolchain succeeded but `validate` throws
(here on `badTypeTagWasm`), the compile route's `catch` answers
400 "Compilation failed" with a `success: false` event — the module is not
returned with its validity in metadata. -/
theorem c8_compile_400_on_validator_throw :
    compileAfterToolchain badTypeTagWasm =
      { status := 400, body := none, contractValidHeader := none,
        contractErrorsHeader := none, contractWarningsHeader := none,
        eventSuccess := false } := by
  rfl

/-- Claim C3 (counterexample): a `run` return with the sign bit set does not
denote an unsigned length ≥ 2^31.  At raw return `2^31` with the two-page
memory, the harness returns the empty byte string, while the claim's
unsigned reading would return the 65536 bytes from `OUTPUT_PTR` to the end
of memory. -/
theorem toSigned32_signbit : toSigned32 (2 ^ 31) = -2147483648 := by
  unfold toSigned32
  norm_num

theorem jsSliceIdx_start_131072 : jsSliceIdx 131072 ((65536 : Nat) : Int) = 65536 := by
  unfold jsSliceIdx
  split_ifs <;> omega

theorem jsSliceIdx_end_signbit :
    jsSliceIdx 131072 (((65536 : Nat) : Int) + toSigned32 (2 ^ 31)) = 0 := by
  rw [toSigned32_signbit]
  unfold jsSliceIdx
  split_ifs <;> omega

theorem c3_signbit_counterexample :
    executeOutput (List.replicate 131072 0) (2 ^ 31) = [] ∧
    executeOutputUnsignedClaim (List.replicate 131072 0) (2 ^ 31) ≠ [] := by
  constructor
  · unfold executeOutput jsSlice OUTPUT_PTR
    simp only [List.length_replicate]
    rw [jsSliceIdx_start_131072, jsSliceIdx_end_signbit]
    norm_num
  · unfold executeOutputUnsignedClaim OUTPUT_PTR
    rw [List.drop_replicate, List.take_replicate]
    intro hnil
    have hlen := congrArg List.length hnil
    simp only [List.length_replicate, List.length_nil] at hlen
    norm_num at hlen

/-- Claim C3 (amended): the i32 return of `run` is read as a signed 32-bit
value; the output is the typed-array slice
`memory[OUTPUT_PTR : OUTPUT_PTR + n]` for that signed `n` (negative end
indices count from the end of memory, clamped), so a sign-bit-set return is
negative and, with the two-page memory, yields fewer than `MAX_OUTPUT`
bytes — never a length ≥ 2^31. -/
theorem c3_signed_interpretation (postMem : List Nat) (r : Nat)
    (h1 : 2 ^ 31 ≤ r) (h2 : r < 2 ^ 32) (h3 : postMem.length = 131072) :
    toSigned32 r < 0 ∧
    executeOutput postMem r =
      jsSlice postMem (OUTPUT_PTR : Int) ((OUTPUT_PTR : Int) + toSigned32 r) ∧
    (executeOutput postMem r).length < MAX_OUTPUT := by
  refine ⟨?_, rfl, ?_⟩
  · unfold toSigned32
    rw [if_neg (by omega)]
    omega
  · unfold executeOutput jsSlice jsSliceIdx toSigned32 OUTPUT_PTR MAX_OUTPUT
    simp only [List.length_take, List.length_drop, h3]
    split_ifs <;> omega


/-- Witness for the amended claim C3 at raw return `2^31`. -/
theorem c3_signed_interpretation_witness :
    toSigned32 (2 ^ 31) < 0 ∧
    executeOutput (List.replicate 131072 0) (2 ^ 31) =
      jsSlice (List.replicate 131072 0) (OUTPUT_PTR : Int)
        ((OUTPUT_PTR : Int) + toSigned32 (2 ^ 31)) ∧
    (executeOutput (List.replicate 131072 0) (2 ^ 31)).length < MAX_OUTPUT :=
  c3_signed_interpretation (List.replicate 131072 0) (2 ^ 31) (by norm_num) (by norm_num)
    (by rw [List.length_replicate])

/-! ## Alias-registry invariant (claim C5 machinery) -/

theorem setAlias_blobs (st : Store) (n h : String) : (setAlias st n h).2.blobs = st.blobs := by
  unfold setAlias
  split
  · split <;> rfl
  · rfl

theorem hasBlob_of_blobs_eq (st st' : Store) (x : String) (hb : st'.blobs = st.blobs) :
    hasBlob st' x = hasBlob st x := by
  unfold hasBlob
  rw [hb]

theorem setAlias_mem_aliases (st : Store) (n h : String) (p : String × AliasRow)
    (hp : p ∈ (setAlias st n h).2.aliases) :
    p ∈ st.aliases ∨ (p.2.hash = h ∧ hasBlob st h = true) := by
  unfold setAlias at hp
  split at hp
  next hb =>
    split at hp
    next row hga =>
      dsimp only at hp
      rcases List.mem_map.mp hp with ⟨q, hq, hfq⟩
      by_cases hqn : q.1 = n
      · right
        rw [← hfq]
        simp [hqn, hb]
      · left
        rw [← hfq]
        simp only [hqn, if_false]
        exact hq
    next hga =>
      dsimp only at hp
      rcases List.mem_append.mp hp with hq | hq
      · left
        exact hq
      · right
        simp only [List.mem_singleton] at hq
        subst hq
        exact ⟨rfl, hb⟩
  next hb =>
    left
    exact hp

/-- Claim C5: `setAlias` fails (returning the `null` sentinel with the store
untouched) whenever no blob with the target hash exists; consequently the
invariant "every alias references a stored blob" holds initially and is
preserved by every mutating operation of the store. -/
theorem c5_alias_invariant (sha256hex : List Nat → String) :
    (∀ st name h, hasBlob st h = false → setAlias st name h = (none, st)) ∧
    aliasInv emptyStore ∧
    (∀ st op, aliasInv st → aliasInv (applyOp sha256hex st op)) := by
  refine ⟨?_, ?_, ?_⟩
  · intro st name h hh
    unfold setAlias
    rw [if_neg]
    rw [hh]
    simp
  · intro p hp
    simp [emptyStore] at hp
  · intro st op hinv
    cases op with
    | put d =>
      intro p hp
      simp only [applyOp] at hp ⊢
      rw [putBlob_aliases] at hp
      exact hasBlob_putBlob_mono sha256hex st d _ (hinv p hp)
    | set n h =>
      intro p hp
      simp only [applyOp] at hp ⊢
      rw [hasBlob_of_blobs_eq st _ _ (setAlias_blobs st n h)]
      rcases setAlias_mem_aliases st n h p hp with hmem | ⟨hhash, hb⟩
      · exact hinv p hmem
      · rw [hhash]
        exact hb
    | del n =>
      intro p hp
      simp only [applyOp, deleteAlias] at hp ⊢
      exact hinv p (List.mem_of_mem_filter hp)
    | record a =>
      intro p hp
      simp only [applyOp, recordEvent] at hp ⊢
      exact hinv p hp

/-- Witness for claim C5: the guard fires on an empty store, and the
invariant survives a `put`. -/
theorem c5_alias_invariant_witness :
    setAlias emptyStore "a" "x" = (none, emptyStore) ∧
    aliasInv (applyOp demoHash emptyStore (.put [1])) :=
  ⟨(c5_alias_invariant demoHash).1 emptyStore "a" "x" (by rfl),
   (c5_alias_invariant demoHash).2.2 emptyStore (.put [1]) (c5_alias_invariant demoHash).2.1⟩

/-- Claim C6: `resolveRef` returns the alias's hash (flagging the alias)
whenever the ref names an alias — even when the ref is also a stored blob
hash — otherwise the ref itself when it is a stored blob hash, and fails
when it is neither. -/
theorem c6_resolveRef_spec (st : Store) (ref : String) :
    (∀ a, getAlias st ref = some a → resolveRef st ref = some ⟨a.hash, some ref⟩) ∧
    (∀ a, getAlias st ref = some a → hasBlob st ref = true →
        resolveRef st ref = some ⟨a.hash, some ref⟩) ∧
    (getAlias st ref = none → hasBlob st ref = true → resolveRef st ref = some ⟨ref, none⟩) ∧
    (getAlias st ref = none → hasBlob st ref = false → resolveRef st ref = none) := by
  refine ⟨?_, ?_, ?_, ?_⟩
  · intro a ha
    simp [resolveRef, ha]
  · intro a ha _
    simp [resolveRef, ha]
  · intro ha hb
    simp [resolveRef, ha, hb]
  · intro ha hb
    simp [resolveRef, ha, hb]

/-- Witness for claim C6 on `demoStore`, where `n` is simultaneously an
alias (to `h1`) and a stored blob hash: the alias wins. -/
theorem c6_resolveRef_spec_witness :
    resolveRef demoStore "n" = some ⟨"h1", some "n"⟩ ∧ hasBlob demoStore "n" = true :=
  ⟨(c6_resolveRef_spec demoStore "n").2.1 ⟨"h1", 0, 0⟩ (by rfl) (by rfl), by rfl⟩

/-- Claim C7: `put` returns the digest of the data; a second `put` of the
same data returns the same digest and leaves the whole store — the stored
row and its `created_at` included — unchanged; and `get` at the digest
returns exactly the data (under freedom from digest collisions with the
already-stored rows). -/
theorem c7_put_idempotent_roundtrip (sha256hex : List Nat → String) (st : Store) (x : List Nat)
    (hcol : noCollisionWith sha256hex st x) :
    (putBlob sha256hex st x).1 = sha256hex x ∧
    putBlob sha256hex (putBlob sha256hex st x).2 x = (sha256hex x, (putBlob sha256hex st x).2) ∧
    getBlob (putBlob sha256hex st x).2 (sha256hex x) = some x := by
  refine ⟨putBlob_fst sha256hex st x, ?_, getBlob_putBlob_self sha256hex st x hcol⟩
  exact putBlob_of_hasBlob sha256hex _ x (hasBlob_putBlob_self sha256hex st x)

/-- Witness for claim C7 on the empty store (trivially collision-free). -/
theorem c7_put_idempotent_roundtrip_witness :
    (putBlob demoHash emptyStore [7]).1 = demoHash [7] ∧
    putBlob demoHash (putBlob demoHash emptyStore [7]).2 [7]
      = (demoHash [7], (putBlob demoHash emptyStore [7]).2) ∧
    getBlob (putBlob demoHash emptyStore [7]).2 (demoHash [7]) = some [7] :=
  c7_put_idempotent_roundtrip demoHash emptyStore [7]
    (by simp [noCollisionWith, emptyStore])

/-- Claim C9: `recordEvent` stores NULL rather than 0 for a zero
`outputSize` (and likewise a zero `durationMs`): the resulting store is
indistinguishable from one where the size was never supplied. -/
theorem c9_zero_stored_as_null (st : Store) (a : EventArgs) (h : a.outputSize = some 0) :
    (mkEventRow a).output_size = none ∧
    recordEvent st a = recordEvent st { a with outputSize := none } ∧
    (a.durationMs = some 0 → (mkEventRow a).duration_ms = none) := by
  refine ⟨?_, ?_, ?_⟩
  · simp [mkEventRow, h, jsOrNullNat]
  · simp [recordEvent, mkEventRow, h, jsOrNullNat]
  · intro h2
    simp [mkEventRow, h2, jsOrNullNat]

/-- The options object of the execute event the `/run` route records for an
empty output in zero milliseconds. -/
def demoEventArgs : EventArgs :=
  { etype := some "execute", outputSize := some 0, durationMs := some 0, success := true }

/-- Witness for claim C9 at a concrete zero-size execute event. -/
theorem c9_zero_stored_as_null_witness :
    (mkEventRow demoEventArgs).output_size = none ∧
    recordEvent emptyStore demoEventArgs
      = recordEvent emptyStore { demoEventArgs with outputSize := none } ∧
    (demoEventArgs.durationMs = some 0 → (mkEventRow demoEventArgs).duration_ms = none) :=
  c9_zero_stored_as_null emptyStore demoEventArgs (by rfl)

theorem jsOrNullNat_some_of_ne (n : Nat) (h : n ≠ 0) : jsOrNullNat (some n) = some n := by
  cases n with
  | zero => exact absurd rfl h
  | succ m => rfl

theorem jsOrNullStr_some_of_ne (s : String) (h : s ≠ "") : jsOrNullStr (some s) = some s := by
  simp [jsOrNullStr, h]

/-- Claim C10: on the body-input path of `/run/:ref`, the input bytes are
stored as a blob before execution; after an execution failure the blob is
still present (and readable), and exactly one `execute` event was appended,
carrying the input hash, the module hash, the duration, `success = 0`, the
runtime error message, and no output hash or size. -/
theorem c10_run_failure_event (sha256hex : List Nat → String) (st : Store)
    (moduleHash : String) (body : List Nat) (durationMs : Nat) (errMsg : String)
    (hmh : moduleHash ≠ "") (hhash : sha256hex body ≠ "") (hdur : durationMs ≠ 0)
    (herr : errMsg ≠ "") (hcol : noCollisionWith sha256hex st body) :
    hasBlob (runRouteBodyFailure sha256hex st moduleHash body durationMs errMsg)
      (sha256hex body) = true ∧
    getBlob (runRouteBodyFailure sha256hex st moduleHash body durationMs errMsg)
      (sha256hex body) = some body ∧
    (runRouteBodyFailure sha256hex st moduleHash body durationMs errMsg).events =
      st.events ++ [⟨"execute", none, some (sha256hex body), none, some moduleHash,
        none, none, some durationMs, 0, some errMsg⟩] := by
  unfold runRouteBodyFailure
  refine ⟨?_, ?_, ?_⟩
  · exact hasBlob_putBlob_self sha256hex st body
  · exact getBlob_putBlob_self sha256hex st body hcol
  · simp only [recordEvent, putBlob_events]
    simp [mkEventRow, jsOrNullStr_some_of_ne _ hmh, jsOrNullStr_some_of_ne _ hhash,
      jsOrNullStr_some_of_ne _ herr, jsOrNullNat_some_of_ne _ hdur, jsOrNullStr, jsOrNullNat]
    exact ⟨hhash, hmh, herr⟩

/-- Witness for claim C10 at a concrete failed execution. -/
theorem c10_run_failure_event_witness :
    hasBlob (runRouteBodyFailure demoHash emptyStore "m" [1] 3 "trap") (demoHash [1]) = true ∧
    getBlob (runRouteBodyFailure demoHash emptyStore "m" [1] 3 "trap") (demoHash [1])
      = some [1] ∧
    (runRouteBodyFailure demoHash emptyStore "m" [1] 3 "trap").events =
      emptyStore.events ++ [⟨"execute", none, some (demoHash [1]), none, some "m",
        none, none, some 3, 0, some "trap"⟩] :=
  c10_run_failure_event demoHash emptyStore "m" [1] 3 "trap" (by decide)
    (by decide) (by decide) (by decide) (by simp [noCollisionWith, emptyStore])

end CompilerApi
